import Mathlib

/-!
Shallow embedding of the real-time poll application
(source files `models.py`, `services/poll_service.py`, `app.py`, `config.py`).

The persistent store (SQLAlchemy over SQLite/PostgreSQL) is modelled as an
explicit record of rows, `DB`.  A service call is a function
`DB → Except PollServiceError (DB × α)`: an `.ok` result carries the state
after the committed transaction, an `.error` result corresponds to a raised
exception together with a rolled-back transaction, so the caller's state is
the unchanged pre-state (`apply_op` below makes that rollback explicit).
Machine integers are `Nat`; wall-clock times are `Nat` for row timestamps and
`ℚ` for the rate limiter's `time.time()` readings (floats idealised as exact
rationals).  Autoincrement primary keys are modelled by the `next_*_id`
counters, so row ids record creation order.
-/

/-- Python's `str.strip()`: drop leading and trailing whitespace.  (A
kernel-computable equivalent of `String.trim`, defined over the character
list so that concrete states evaluate by `decide`.) -/
def py_strip (s : String) : String :=
  ⟨((s.data.dropWhile Char.isWhitespace).reverse.dropWhile Char.isWhitespace).reverse⟩

/-- Python's `str.upper()` over the character list (a kernel-computable
equivalent of `String.toUpper`). -/
def py_upper (s : String) : String := ⟨s.data.map Char.toUpper⟩

/-- A row of the `polls` table (`models.py`, class `Poll`):
`id` (autoincrement primary key), `question`, `poll_code` (unique),
`created_at` (defaulted timestamp, here supplied by the caller). -/
structure PollRow where
  id : Nat
  question : String
  poll_code : String
  created_at : Nat
deriving DecidableEq

/-- A row of the `options` table (`models.py`, class `Option`):
`id`, `poll_id` (foreign key), `option_text`, `vote_count` (default 0). -/
structure OptionRow where
  id : Nat
  poll_id : Nat
  option_text : String
  vote_count : Nat
deriving DecidableEq

/-- A row of the `votes` table (`models.py`, class `Vote`):
`id`, `poll_id`, `option_id`, `ip_address`, `browser_token`.
The `timestamp` column exists in the source but no verified claim
mentions it, so it is not carried here. -/
structure VoteRow where
  id : Nat
  poll_id : Nat
  option_id : Nat
  ip_address : String
  browser_token : String
deriving DecidableEq

/-- The whole database: the three tables plus the autoincrement counters. -/
structure DB where
  polls : List PollRow
  options : List OptionRow
  votes : List VoteRow
  next_poll_id : Nat
  next_option_id : Nat
  next_vote_id : Nat
deriving DecidableEq

/-- The freshly initialised database (`models.py`, `init_db`). -/
def DB.empty : DB := ⟨[], [], [], 0, 0, 0⟩

/-- The exception taxonomy of `services/poll_service.py`:
`ValidationError`, `DuplicateVoteError`, `PollNotFoundError`,
`RateLimitError`, and the base class `PollServiceError` (used directly
for the generic "Failed to submit vote" failure). -/
inductive PollServiceError where
  | validationError (msg : String)
  | duplicateVoteError (msg : String)
  | pollNotFoundError (msg : String)
  | rateLimitError (msg : String)
  | serviceError (msg : String)
deriving DecidableEq

/-- `PollService.get_poll_by_code`: `query(Poll).filter_by(poll_code=...).first()`. -/
def get_poll_by_code (s : DB) (poll_code : String) : Option PollRow :=
  s.polls.find? (fun p => p.poll_code == poll_code)

/-- Whether a poll row with the given code already exists (the collision
check inside `PollService._generate_unique_poll_code`, and the `poll_code`
unique constraint of `models.py`). -/
def poll_code_exists (s : DB) (code : String) : Bool :=
  s.polls.any (fun p => p.poll_code == code)

/-- The retry loop of `PollService._generate_unique_poll_code`: up to `fuel`
further attempts, attempt `i` drawing candidate `codes i` from the external
code generator (`generate_poll_code` in `models.py`, modelled as an oracle
stream of candidates). -/
def gen_code_attempts (s : DB) (codes : Nat → String) : Nat → Nat → Except PollServiceError String
  | _, 0 => .error (.validationError "Unable to generate unique poll code")
  | i, fuel + 1 =>
    if poll_code_exists s (codes i) then gen_code_attempts s codes (i + 1) fuel
    else .ok (codes i)

/-- `PollService._generate_unique_poll_code`: `max_attempts = 10`. -/
def generate_unique_poll_code (s : DB) (codes : Nat → String) : Except PollServiceError String :=
  gen_code_attempts s codes 0 10

/-- The per-option cleaning loop of `PollService.create_poll`:
trim, reject empty-after-trim, reject over-length, keep the trimmed text. -/
def clean_options (max_option_length : Nat) : List String → Except PollServiceError (List String)
  | [] => .ok []
  | opt :: rest =>
    let o := py_strip opt
    if o = "" then .error (.validationError "Options cannot be empty")
    else if max_option_length < o.length then
      .error (.validationError
        ("Each option must be " ++ toString max_option_length ++ " characters or less"))
    else
      match clean_options max_option_length rest with
      | .error e => .error e
      | .ok cs => .ok (o :: cs)

/-- The `Option` rows appended to a new poll by `PollService.create_poll`:
one row per cleaned text, in input order, `vote_count = 0`, ids assigned
by autoincrement starting at `first_id`. -/
def mk_options (poll_id : Nat) (first_id : Nat) : List String → List OptionRow
  | [] => []
  | t :: ts => ⟨first_id, poll_id, t, 0⟩ :: mk_options poll_id (first_id + 1) ts

/-- `PollService.create_poll`.  Validations in source order: question
non-empty after strip, question length, option count lower and upper bound
(`if not options or len(options) < min_options`), per-option cleaning,
duplicate check (`len(cleaned) != len(set(cleaned))`), then code generation
and the atomic commit of the poll row together with all its option rows.
The final `poll_code_exists` test is the storage layer's unique constraint
on `poll_code` firing at commit (`except IntegrityError` in the source,
which rolls back and retries); right after `generate_unique_poll_code`
verified the code absent it can never fire in this single-session model,
so that dead branch simply reports the storage error. -/
def create_poll (s : DB) (question : String) (options : List String)
    (min_options max_options max_question_length max_option_length : Nat)
    (codes : Nat → String) (now : Nat) : Except PollServiceError (DB × PollRow) :=
  if py_strip question = "" then .error (.validationError "Question is required")
  else if max_question_length < (py_strip question).length then
    .error (.validationError
      ("Question must be " ++ toString max_question_length ++ " characters or less"))
  else if options.isEmpty || options.length < min_options then
    .error (.validationError
      ("At least " ++ toString min_options ++ " options are required"))
  else if max_options < options.length then
    .error (.validationError ("Maximum " ++ toString max_options ++ " options allowed"))
  else
    match clean_options max_option_length options with
    | .error e => .error e
    | .ok cleaned =>
      if cleaned.dedup.length ≠ cleaned.length then
        .error (.validationError "Options must be unique")
      else
        match generate_unique_poll_code s codes with
        | .error e => .error e
        | .ok poll_code =>
          if poll_code_exists s poll_code then
            .error (.serviceError "IntegrityError")
          else
            .ok ({ polls := s.polls ++ [⟨s.next_poll_id, py_strip question, poll_code, now⟩]
                 , options := s.options ++ mk_options s.next_poll_id s.next_option_id cleaned
                 , votes := s.votes
                 , next_poll_id := s.next_poll_id + 1
                 , next_option_id := s.next_option_id + cleaned.length
                 , next_vote_id := s.next_vote_id },
                 ⟨s.next_poll_id, py_strip question, poll_code, now⟩)

/-- The relative update `vote_count = Option.vote_count + 1` of
`PollService.submit_vote`, applied by the storage layer to the rows whose
`id` matches the voted option. -/
def option_inc (option_id : Nat) (o : OptionRow) : OptionRow :=
  if o.id == option_id then { o with vote_count := o.vote_count + 1 } else o

/-- Violation of either of the two unique constraints declared in
`models.py` (`Vote.__table_args__`): `uq_vote_poll_ip` on
(`poll_id`, `ip_address`) and `uq_vote_poll_token` on
(`poll_id`, `browser_token`). -/
def vote_conflict (w v : VoteRow) : Bool :=
  w.poll_id == v.poll_id && (w.ip_address == v.ip_address || w.browser_token == v.browser_token)

/-- The storage layer's error at commit time. -/
inductive DBError where
  | integrityError
deriving DecidableEq

/-- The transaction commit of `PollService.submit_vote`: the count increment
and the vote insert either both take effect, or the storage layer rejects
the insert with `IntegrityError` because one of the two unique constraints
of `models.py` is violated, and nothing changes.  This models the
storage-level enforcement itself, independent of the application-level
pre-checks in `submit_vote`. -/
def db_commit_vote (s : DB) (option_id : Nat) (v : VoteRow) : Except DBError DB :=
  if s.votes.any (fun w => vote_conflict w v) then .error .integrityError
  else
    .ok { s with options := s.options.map (option_inc option_id)
               , votes := s.votes ++ [v]
               , next_vote_id := s.next_vote_id + 1 }

/-- `PollService.submit_vote`: resolve the poll (`PollNotFoundError`),
resolve the option and require it belongs to the poll
(`ValidationError "Invalid option selected"`), the two application-level
duplicate pre-checks (`DuplicateVoteError`), then the atomic transaction
(count increment + vote insert) through `db_commit_vote`; an
`IntegrityError` at commit rolls back and is re-raised as
`DuplicateVoteError "You have already voted"`.  The returned value is the
`voted_option_id` field of the source's result dict. -/
def submit_vote (s : DB) (poll_code : String) (option_id : Nat)
    (ip_address browser_token : String) : Except PollServiceError (DB × Nat) :=
  match get_poll_by_code s poll_code with
  | none => .error (.pollNotFoundError "Poll not found")
  | some poll =>
    match s.options.find? (fun o => o.id == option_id && o.poll_id == poll.id) with
    | none => .error (.validationError "Invalid option selected")
    | some _ =>
      if s.votes.any (fun v => v.poll_id == poll.id && v.ip_address == ip_address) then
        .error (.duplicateVoteError "You have already voted from this IP address")
      else if s.votes.any (fun v => v.poll_id == poll.id && v.browser_token == browser_token) then
        .error (.duplicateVoteError "You have already voted")
      else
        match db_commit_vote s option_id
            ⟨s.next_vote_id, poll.id, option_id, ip_address, browser_token⟩ with
        | .ok s2 => .ok (s2, option_id)
        | .error _ => .error (.duplicateVoteError "You have already voted")

/-- Python's `round` to an integer: round half to even (banker's rounding),
here over exact rationals. -/
def round_half_even (x : ℚ) : ℤ :=
  if x - Int.floor x < 1 / 2 then Int.floor x
  else if (1 : ℚ) / 2 < x - Int.floor x then Int.floor x + 1
  else if Int.floor x % 2 = 0 then Int.floor x else Int.floor x + 1

/-- Python's `round(x, 1)`: one decimal place. -/
def round1 (x : ℚ) : ℚ := (round_half_even (x * 10) : ℚ) / 10

/-- One entry of the `options` list of a results payload
(`PollService.get_results`): `{id, option_text, vote_count, percentage}`. -/
structure OptionResult where
  id : Nat
  option_text : String
  vote_count : Nat
  percentage : ℚ
deriving DecidableEq

/-- The results payload of `PollService.get_results`:
`{poll_code, question, total_votes, options, created_at}`. -/
structure ResultsSnapshot where
  poll_code : String
  question : String
  total_votes : Nat
  options : List OptionResult
  created_at : Nat
deriving DecidableEq

/-- The `poll.options` ORM relationship (`models.py`): the option rows of
one poll, ordered by `Option.id`, i.e. creation order.  Rows are inserted
with ascending ids, so filtering the table in storage order yields exactly
that ordering. -/
def poll_options (s : DB) (poll_id : Nat) : List OptionRow :=
  s.options.filter (fun o => o.poll_id == poll_id)

/-- The votes referencing one poll (`vote.poll_id == poll.id`). -/
def votes_of_poll (s : DB) (poll_id : Nat) : List VoteRow :=
  s.votes.filter (fun v => v.poll_id == poll_id)

/-- `PollService.get_results`: resolve the poll, total the per-option
counts, and emit one entry per option with
`percentage = (count / total * 100) if total > 0 else 0` rounded to one
decimal.  The `poll_code` field echoes the argument (as in the source),
and `created_at` is the poll's creation timestamp. -/
def get_results (s : DB) (poll_code : String) : Except PollServiceError ResultsSnapshot :=
  match get_poll_by_code s poll_code with
  | none => .error (.pollNotFoundError "Poll not found")
  | some poll =>
    let opts := poll_options s poll.id
    let total_votes := (opts.map (fun o => o.vote_count)).sum
    .ok { poll_code := poll_code
        , question := poll.question
        , total_votes := total_votes
        , options := opts.map (fun o =>
            { id := o.id
            , option_text := o.option_text
            , vote_count := o.vote_count
            , percentage :=
                round1 (if 0 < total_votes
                        then (o.vote_count : ℚ) / (total_votes : ℚ) * 100 else 0) })
        , created_at := poll.created_at }

/-- The in-memory sliding-window rate limiter (`RateLimiter` in
`services/poll_service.py`): per-IP list of admitted request times. -/
structure RateLimiter where
  max_requests : Nat
  window_seconds : ℚ
  requests : String → List ℚ

/-- A rate limiter with no recorded requests (`RateLimiter.__init__`). -/
def RateLimiter.mk0 (max_requests : Nat) (window_seconds : ℚ) : RateLimiter :=
  ⟨max_requests, window_seconds, fun _ => []⟩

/-- `RateLimiter.is_allowed`: prune the IP's record to the trailing window
(`req_time > current_time - window_seconds` is kept, and the pruned list is
stored back), reject without recording when the remaining count is at or
above `max_requests`, otherwise record `current_time` and admit. -/
def RateLimiter.is_allowed (rl : RateLimiter) (ip_address : String) (current_time : ℚ) :
    Bool × RateLimiter :=
  let window_start := current_time - rl.window_seconds
  let recent := (rl.requests ip_address).filter (fun t => window_start < t)
  if rl.max_requests ≤ recent.length then
    (false, { rl with requests := fun ip => if ip = ip_address then recent else rl.requests ip })
  else
    (true, { rl with requests := fun ip =>
        if ip = ip_address then recent ++ [current_time] else rl.requests ip })

/-- The outcome of the `/create` route of `app.py`:
redirect to the share page on success, `flash(str(e))` + re-render for a
`ValidationError`, and the generic "An error occurred" flash for any other
exception. -/
inductive CreateRouteOutcome where
  | redirect (poll_code : String)
  | validationRejection (msg : String)
  | genericFailure
deriving DecidableEq

/-- The `/create` route handler of `app.py` from the `PollService` call on
(the rate-limit admission and form parsing that precede it are modelled by
`RateLimiter.is_allowed` and by the caller-supplied argument lists). -/
def route_create_poll (s : DB) (question : String) (options : List String)
    (min_options max_options max_question_length max_option_length : Nat)
    (codes : Nat → String) (now : Nat) : DB × CreateRouteOutcome :=
  match create_poll s question options min_options max_options
      max_question_length max_option_length codes now with
  | .ok (s2, poll) => (s2, .redirect poll.poll_code)
  | .error (.validationError m) => (s, .validationRejection m)
  | .error _ => (s, .genericFailure)

/-- The HTTP outcome of the `/poll/<poll_code>/vote` route of `app.py`.
On success the handler computes `poll_results = get_results(...)` once,
emits it to the poll's room (`socketio.emit('vote_update', poll_results, ...)`)
and returns it in the JSON body (`{'success': True, 'results': poll_results}`);
the two payloads are carried here as `broadcast_payload` and
`response_results`. -/
inductive VoteRouteResult where
  | rateLimited
  | success (broadcast_payload : ResultsSnapshot) (response_results : ResultsSnapshot)
  | notFound
  | badRequest (msg : String)
  | conflict (msg : String)
  | serverError
deriving DecidableEq

/-- The `/poll/<poll_code>/vote` route handler of `app.py`: rate-limit
admission, normalisation of the code with `.upper()`, the service call,
then the broadcast and the direct JSON response built from one
`get_results` snapshot; service exceptions map to the handler's
except-branches (404 / 400 / 409 / 500). -/
def route_submit_vote (s : DB) (rl : RateLimiter) (raw_code : String) (option_id : Nat)
    (ip_address browser_token : String) (now : ℚ) : DB × RateLimiter × VoteRouteResult :=
  match rl.is_allowed ip_address now with
  | (false, rl2) => (s, rl2, .rateLimited)
  | (true, rl2) =>
    match submit_vote s (py_upper raw_code) option_id ip_address browser_token with
    | .ok (s2, _) =>
      match get_results s2 (py_upper raw_code) with
      | .ok poll_results => (s2, rl2, .success poll_results poll_results)
      | .error _ => (s2, rl2, .serverError)
    | .error (.pollNotFoundError _) => (s, rl2, .notFound)
    | .error (.validationError m) => (s, rl2, .badRequest m)
    | .error (.duplicateVoteError m) => (s, rl2, .conflict m)
    | .error _ => (s, rl2, .serverError)

/-- The two ledger-writing operations reachability ranges over. -/
inductive LedgerOp where
  | create (question : String) (options : List String)
      (min_options max_options max_question_length max_option_length : Nat)
      (codes : Nat → String) (now : Nat)
  | vote (poll_code : String) (option_id : Nat) (ip_address browser_token : String)

/-- Running one operation against the store: an exception rolls the
transaction back, so the state is unchanged on error. -/
def apply_op (s : DB) : LedgerOp → DB
  | .create q opts a b c d codes now =>
    match create_poll s q opts a b c d codes now with
    | .ok (s2, _) => s2
    | .error _ => s
  | .vote pc oid ip tok =>
    match submit_vote s pc oid ip tok with
    | .ok (s2, _) => s2
    | .error _ => s

/-- The state reached from the empty store by a sequence of operations. -/
def run (s : DB) (ops : List LedgerOp) : DB := ops.foldl apply_op s

/-- Structural well-formedness maintained by the autoincrement keys:
poll and option rows are stored in strictly increasing id order (so
per-poll option lists are in creation order), and every id or foreign key
is below the corresponding counter. -/
def wf (s : DB) : Prop :=
  s.polls.Pairwise (fun p q => p.id < q.id)
  ∧ s.options.Pairwise (fun o p => o.id < p.id)
  ∧ (∀ p ∈ s.polls, p.id < s.next_poll_id)
  ∧ (∀ o ∈ s.options, o.id < s.next_option_id)
  ∧ (∀ o ∈ s.options, o.poll_id < s.next_poll_id)
  ∧ (∀ v ∈ s.votes, v.poll_id < s.next_poll_id)

/-- At most one vote row per (poll, IP) and per (poll, browser token):
the property guaranteed by `uq_vote_poll_ip` and `uq_vote_poll_token`. -/
def vote_unique (s : DB) : Prop :=
  s.votes.Pairwise (fun v w => v.poll_id = w.poll_id →
    v.ip_address ≠ w.ip_address ∧ v.browser_token ≠ w.browser_token)

/-- The tally invariant: for every poll the denormalised counts sum to the
number of vote rows referencing the poll. -/
def tally_inv (s : DB) : Prop :=
  ∀ p ∈ s.polls,
    ((poll_options s p.id).map (fun o => o.vote_count)).sum = (votes_of_poll s p.id).length

/-! ### Decidability instances and concrete sample states -/

instance {ε α : Type} [DecidableEq ε] [DecidableEq α] : DecidableEq (Except ε α) := fun x y =>
  match x, y with
  | .ok a, .ok b =>
    if h : a = b then .isTrue (by rw [h]) else .isFalse (fun hh => h (Except.ok.inj hh))
  | .error e, .error f =>
    if h : e = f then .isTrue (by rw [h]) else .isFalse (fun hh => h (Except.error.inj hh))
  | .ok _, .error _ => .isFalse (fun hh => Except.noConfusion hh)
  | .error _, .ok _ => .isFalse (fun hh => Except.noConfusion hh)

instance (s : DB) : Decidable (wf s) := by unfold wf; infer_instance

instance (s : DB) : Decidable (vote_unique s) := by unfold vote_unique; infer_instance

instance (s : DB) : Decidable (tally_inv s) := by unfold tally_inv; infer_instance

/-- A fixed candidate stream for the external code generator. -/
def sample_codes : Nat → String := fun _ => "ABCD1234"

/-- "Pick one" with options A and B, created on the empty store. -/
def db1 : DB := apply_op DB.empty (.create "Pick one" ["A", "B"] 2 10 500 200 sample_codes 0)

/-- `db1` after one vote for option A from IP 1.1.1.1 with token tok-x. -/
def db2 : DB := apply_op db1 (.vote "ABCD1234" 0 "1.1.1.1" "tok-x")

/-- A store already holding a poll whose code is the only candidate the
generator will ever produce, so that every generation attempt collides. -/
def s_collide : DB := ⟨[⟨0, "Q0", "AAAAAAAA", 0⟩], [⟨0, 0, "X", 0⟩, ⟨1, 0, "Y", 0⟩], [], 1, 2, 0⟩

/-- `db1` after one vote for option A from IP 9.9.9.9 with token tok-w. -/
def db3 : DB := apply_op db1 (.vote "ABCD1234" 0 "9.9.9.9" "tok-w")

/-- The rate limiter of `app.py` with its default configuration
(`RATE_LIMIT_REQUESTS = 10`, `RATE_LIMIT_WINDOW = 60`), fresh. -/
def rl10 : RateLimiter := RateLimiter.mk0 10 60

/-- The results snapshot of `db1` (no votes yet). -/
def snap1 : ResultsSnapshot :=
  ⟨"ABCD1234", "Pick one", 0, [⟨0, "A", 0, 0⟩, ⟨1, "B", 0, 0⟩], 0⟩

/-- The results snapshot of `db2` and of `db3` (one vote for A). -/
def snap2 : ResultsSnapshot :=
  ⟨"ABCD1234", "Pick one", 1, [⟨0, "A", 1, 100⟩, ⟨1, "B", 0, 0⟩], 0⟩

/-- The state produced by a successful `create_poll` call: the poll row and
its option rows appended, the autoincrement counters advanced. -/
def created_state (s : DB) (question : String) (cleaned : List String)
    (code : String) (now : Nat) : DB :=
  ⟨s.polls ++ [⟨s.next_poll_id, py_strip question, code, now⟩],
   s.options ++ mk_options s.next_poll_id s.next_option_id cleaned,
   s.votes, s.next_poll_id + 1, s.next_option_id + cleaned.length, s.next_vote_id⟩

/-- The poll row returned by a successful `create_poll` call. -/
def created_poll_row (s : DB) (question : String) (code : String) (now : Nat) : PollRow :=
  ⟨s.next_poll_id, py_strip question, code, now⟩

/-! ### Inversion lemmas for the service operations -/

theorem clean_options_ok {m : Nat} {opts cs : List String}
    (h : clean_options m opts = .ok cs) : cs = opts.map py_strip := by
  induction opts generalizing cs with
  | nil =>
    simp only [clean_options] at h
    cases h
    rfl
  | cons a rest ih =>
    simp only [clean_options] at h
    split at h
    · cases h
    · split at h
      · cases h
      · cases hrec : clean_options m rest with
        | error e => rw [hrec] at h; cases h
        | ok cs2 =>
          rw [hrec] at h
          cases h
          simp [ih hrec]

theorem clean_options_complete {m : Nat} {opts : List String}
    (h : ∀ o ∈ opts, ¬ py_strip o = "" ∧ (py_strip o).length ≤ m) :
    clean_options m opts = .ok (opts.map py_strip) := by
  induction opts with
  | nil => rfl
  | cons a rest ih =>
    have ha := h a (List.mem_cons_self a rest)
    simp only [clean_options, List.map]
    rw [if_neg ha.1, if_neg (by omega), ih (fun o ho => h o (List.mem_cons_of_mem a ho))]

theorem gen_code_attempts_ok {s : DB} {codes : Nat → String} {i fuel : Nat} {c : String}
    (h : gen_code_attempts s codes i fuel = .ok c) : poll_code_exists s c = false := by
  induction fuel generalizing i with
  | zero => simp [gen_code_attempts] at h
  | succ n ih =>
    simp only [gen_code_attempts] at h
    split at h
    · exact ih h
    · rename_i hcond
      cases h
      simpa using hcond

theorem gen_code_attempts_exhausted {s : DB} {codes : Nat → String} {fuel : Nat} (i : Nat)
    (h : ∀ j < fuel, poll_code_exists s (codes (i + j)) = true) :
    gen_code_attempts s codes i fuel =
      .error (.validationError "Unable to generate unique poll code") := by
  induction fuel generalizing i with
  | zero => rfl
  | succ n ih =>
    simp only [gen_code_attempts]
    rw [if_pos (by simpa using h 0 (Nat.succ_pos n))]
    exact ih (i + 1) (fun j hj => by
      have := h (j + 1) (Nat.succ_lt_succ hj)
      rwa [show i + (j + 1) = i + 1 + j by omega] at this)

theorem generate_unique_poll_code_ok {s : DB} {codes : Nat → String} {c : String}
    (h : generate_unique_poll_code s codes = .ok c) : poll_code_exists s c = false :=
  gen_code_attempts_ok h

theorem generate_unique_poll_code_exhausted {s : DB} {codes : Nat → String}
    (h : ∀ j < 10, poll_code_exists s (codes j) = true) :
    generate_unique_poll_code s codes =
      .error (.validationError "Unable to generate unique poll code") := by
  have h10 : ∀ j < 10, poll_code_exists s (codes (0 + j)) = true :=
    fun j hj => by simpa using h j hj
  have := gen_code_attempts_exhausted 0 h10
  simpa [generate_unique_poll_code] using this

theorem create_poll_ok {s : DB} {q : String} {opts : List String}
    {a b c d : Nat} {codes : Nat → String} {now : Nat} {s2 : DB} {p : PollRow}
    (h : create_poll s q opts a b c d codes now = .ok (s2, p)) :
    ∃ cleaned code,
      clean_options d opts = .ok cleaned ∧
      cleaned = opts.map py_strip ∧
      generate_unique_poll_code s codes = .ok code ∧
      poll_code_exists s code = false ∧
      ¬ py_strip q = "" ∧ ¬ opts.isEmpty ∧ a ≤ opts.length ∧ opts.length ≤ b ∧
      cleaned.dedup.length = cleaned.length ∧
      p = ⟨s.next_poll_id, py_strip q, code, now⟩ ∧
      s2 = ⟨s.polls ++ [p], s.options ++ mk_options s.next_poll_id s.next_option_id cleaned,
            s.votes, s.next_poll_id + 1, s.next_option_id + cleaned.length, s.next_vote_id⟩ := by
  unfold create_poll at h
  split at h
  · cases h
  next hq =>
  split at h
  · cases h
  next hqlen =>
  split at h
  · cases h
  next hcount =>
  split at h
  · cases h
  next hmax =>
  split at h
  · cases h
  next cleaned hclean =>
  split at h
  · cases h
  next hdup =>
  split at h
  · cases h
  next code hcode =>
  split at h
  · cases h
  next hexists =>
  cases h
  refine ⟨cleaned, code, hclean, clean_options_ok hclean, hcode,
    by simpa using hexists, hq, ?_, ?_, ?_, ?_, rfl, rfl⟩
  · intro habs
    exact hcount (by simp [habs])
  · by_contra habs
    exact hcount (by simp; omega)
  · omega
  · simpa using hdup

theorem option_inc_id (oid : Nat) (o : OptionRow) : (option_inc oid o).id = o.id := by
  unfold option_inc; split <;> rfl

theorem option_inc_poll_id (oid : Nat) (o : OptionRow) :
    (option_inc oid o).poll_id = o.poll_id := by
  unfold option_inc; split <;> rfl

theorem option_inc_text (oid : Nat) (o : OptionRow) :
    (option_inc oid o).option_text = o.option_text := by
  unfold option_inc; split <;> rfl

theorem submit_vote_ok {s : DB} {pc : String} {oid : Nat} {ip tok : String} {s2 : DB} {r : Nat}
    (h : submit_vote s pc oid ip tok = .ok (s2, r)) :
    ∃ poll o,
      get_poll_by_code s pc = some poll ∧
      s.options.find? (fun x => x.id == oid && x.poll_id == poll.id) = some o ∧
      (s.votes.any fun v => v.poll_id == poll.id && v.ip_address == ip) = false ∧
      (s.votes.any fun v => v.poll_id == poll.id && v.browser_token == tok) = false ∧
      r = oid ∧
      s2 = { s with options := s.options.map (option_inc oid)
                  , votes := s.votes ++ [⟨s.next_vote_id, poll.id, oid, ip, tok⟩]
                  , next_vote_id := s.next_vote_id + 1 } := by
  unfold submit_vote at h
  split at h
  · cases h
  next poll hpoll =>
  split at h
  · cases h
  next o ho =>
  split at h
  · cases h
  next hip =>
  split at h
  · cases h
  next htok =>
  rw [Bool.not_eq_true] at hip htok
  have hg : (s.votes.any fun w =>
      vote_conflict w ⟨s.next_vote_id, poll.id, oid, ip, tok⟩) = false := by
    rw [List.any_eq_false]
    intro w hw
    have hip2 := (List.any_eq_false.mp hip) w hw
    have htok2 := (List.any_eq_false.mp htok) w hw
    simp only [Bool.and_eq_true, Bool.or_eq_true, beq_iff_eq, not_and, not_or,
      vote_conflict] at hip2 htok2 ⊢
    intro hpid
    exact ⟨fun hip3 => hip2 hpid hip3, fun htok3 => htok2 hpid htok3⟩
  rw [db_commit_vote, if_neg (by simp [hg])] at h
  cases h
  exact ⟨poll, o, hpoll, ho, hip, htok, rfl, rfl⟩

theorem submit_vote_duplicate_iff {s : DB} {pc : String} {oid : Nat} {ip tok : String}
    {poll : PollRow} {o : OptionRow}
    (hpoll : get_poll_by_code s pc = some poll)
    (ho : s.options.find? (fun x => x.id == oid && x.poll_id == poll.id) = some o) :
    (∃ m, submit_vote s pc oid ip tok = .error (.duplicateVoteError m)) ↔
    (∃ v ∈ s.votes, v.poll_id = poll.id ∧ (v.ip_address = ip ∨ v.browser_token = tok)) := by
  unfold submit_vote
  simp only [hpoll, ho]
  by_cases hip : (s.votes.any fun v => v.poll_id == poll.id && v.ip_address == ip) = true
  · rw [if_pos hip]
    constructor
    · intro _
      obtain ⟨v, hv, hvp⟩ := List.any_eq_true.mp hip
      have hvp2 : v.poll_id = poll.id ∧ v.ip_address = ip := by simpa using hvp
      exact ⟨v, hv, hvp2.1, Or.inl hvp2.2⟩
    · intro _; exact ⟨_, rfl⟩
  · rw [if_neg hip]
    by_cases htok : (s.votes.any fun v => v.poll_id == poll.id && v.browser_token == tok) = true
    · rw [if_pos htok]
      constructor
      · intro _
        obtain ⟨v, hv, hvp⟩ := List.any_eq_true.mp htok
        have hvp2 : v.poll_id = poll.id ∧ v.browser_token = tok := by simpa using hvp
        exact ⟨v, hv, hvp2.1, Or.inr hvp2.2⟩
      · intro _; exact ⟨_, rfl⟩
    · rw [if_neg htok]
      rw [Bool.not_eq_true] at hip htok
      have hg : (s.votes.any fun w =>
          vote_conflict w ⟨s.next_vote_id, poll.id, oid, ip, tok⟩) = false := by
        rw [List.any_eq_false]
        intro w hw
        have hip2 := (List.any_eq_false.mp hip) w hw
        have htok2 := (List.any_eq_false.mp htok) w hw
        simp only [Bool.and_eq_true, Bool.or_eq_true, beq_iff_eq, not_and, not_or,
          vote_conflict] at hip2 htok2 ⊢
        intro hpid
        exact ⟨fun hip3 => hip2 hpid hip3, fun htok3 => htok2 hpid htok3⟩
      rw [db_commit_vote, if_neg (by simp [hg])]
      constructor
      · rintro ⟨m, hm⟩; cases hm
      · rintro ⟨v, hv, hvp, hv2⟩
        rcases hv2 with hv2 | hv2
        · have hany : (s.votes.any fun x => x.poll_id == poll.id && x.ip_address == ip) = true :=
            List.any_eq_true.mpr ⟨v, hv, by simp [hvp, hv2]⟩
          rw [hip] at hany
          cases hany
        · have hany : (s.votes.any fun x =>
              x.poll_id == poll.id && x.browser_token == tok) = true :=
            List.any_eq_true.mpr ⟨v, hv, by simp [hvp, hv2]⟩
          rw [htok] at hany
          cases hany

/-! ### Structural lemmas about the rows built by the two write operations -/

theorem mk_options_length (pid fid : Nat) (ts : List String) :
    (mk_options pid fid ts).length = ts.length := by
  induction ts generalizing fid with
  | nil => rfl
  | cons t ts ih => simp [mk_options, ih]

theorem mk_options_poll_id (pid fid : Nat) (ts : List String) :
    ∀ o ∈ mk_options pid fid ts, o.poll_id = pid := by
  induction ts generalizing fid with
  | nil => intro o ho; cases ho
  | cons t ts ih =>
    intro o ho
    rcases List.mem_cons.mp ho with h | h
    · rw [h]
    · exact ih (fid + 1) o h

theorem mk_options_vote_count (pid fid : Nat) (ts : List String) :
    ∀ o ∈ mk_options pid fid ts, o.vote_count = 0 := by
  induction ts generalizing fid with
  | nil => intro o ho; cases ho
  | cons t ts ih =>
    intro o ho
    rcases List.mem_cons.mp ho with h | h
    · rw [h]
    · exact ih (fid + 1) o h

theorem mk_options_id_bounds (pid fid : Nat) (ts : List String) :
    ∀ o ∈ mk_options pid fid ts, fid ≤ o.id ∧ o.id < fid + ts.length := by
  induction ts generalizing fid with
  | nil => intro o ho; cases ho
  | cons t ts ih =>
    intro o ho
    rcases List.mem_cons.mp ho with h | h
    · rw [h]; constructor
      · exact Nat.le_refl fid
      · simp
    · have := ih (fid + 1) o h
      constructor
      · omega
      · simp only [List.length_cons]; omega

theorem mk_options_pairwise (pid fid : Nat) (ts : List String) :
    (mk_options pid fid ts).Pairwise (fun a b => a.id < b.id) := by
  induction ts generalizing fid with
  | nil => exact List.Pairwise.nil
  | cons t ts ih =>
    refine List.Pairwise.cons ?_ (ih (fid + 1))
    intro o ho
    exact (mk_options_id_bounds pid (fid + 1) ts o ho).1

theorem mk_options_text (pid fid : Nat) (ts : List String) :
    (mk_options pid fid ts).map (fun o => o.option_text) = ts := by
  induction ts generalizing fid with
  | nil => rfl
  | cons t ts ih => simp [mk_options, ih]

theorem mk_options_count_sum (pid fid : Nat) (ts : List String) :
    ((mk_options pid fid ts).map (fun o => o.vote_count)).sum = 0 := by
  induction ts generalizing fid with
  | nil => rfl
  | cons t ts ih => simp [mk_options, ih]

/-! ### Counting lemmas for the atomic increment -/

theorem sum_vote_count_map_inc (l : List OptionRow) (oid : Nat) :
    ((l.map (option_inc oid)).map (fun o => o.vote_count)).sum
      = (l.map (fun o => o.vote_count)).sum + l.countP (fun o => o.id == oid) := by
  induction l with
  | nil => rfl
  | cons a t ih =>
    simp only [List.map_cons, List.sum_cons, List.countP_cons, ih]
    cases h : a.id == oid
    · simp [option_inc, h]; omega
    · simp [option_inc, h]; omega

theorem filter_map_inc (l : List OptionRow) (oid pid : Nat) :
    (l.map (option_inc oid)).filter (fun o => o.poll_id == pid)
      = (l.filter (fun o => o.poll_id == pid)).map (option_inc oid) := by
  induction l with
  | nil => rfl
  | cons a t ih =>
    by_cases h : (a.poll_id == pid) = true
    · simp only [List.map_cons, List.filter_cons]
      rw [option_inc_poll_id]
      simp [h, ih]
    · simp only [List.map_cons, List.filter_cons]
      rw [option_inc_poll_id]
      simp only [Bool.not_eq_true] at h
      simp [h, ih]

theorem countP_id_eq_zero {l : List OptionRow} {oid : Nat}
    (h : ∀ x ∈ l, x.id ≠ oid) : l.countP (fun x => x.id == oid) = 0 := by
  rw [List.countP_eq_zero]
  intro x hx
  simpa using h x hx

theorem countP_id_eq_one {l : List OptionRow} {o : OptionRow}
    (hp : l.Pairwise (fun a b => a.id < b.id)) (ho : o ∈ l) :
    l.countP (fun x => x.id == o.id) = 1 := by
  induction l with
  | nil => cases ho
  | cons a t ih =>
    rcases List.mem_cons.mp ho with h | h
    · subst h
      rw [List.countP_cons]
      have h0 : t.countP (fun x => x.id == o.id) = 0 := by
        apply countP_id_eq_zero
        intro x hx
        have := (List.pairwise_cons.mp hp).1 x hx
        omega
      simp [h0]
    · have hlt := (List.pairwise_cons.mp hp).1 o h
      rw [List.countP_cons]
      have : (a.id == o.id) = false := by simp; omega
      simp [this, ih (List.pairwise_cons.mp hp).2 h]

/-! ### Preservation of the structural invariants -/

theorem id_inj_of_pairwise {l : List OptionRow}
    (hp : l.Pairwise (fun a b => a.id < b.id))
    {x y : OptionRow} (hx : x ∈ l) (hy : y ∈ l) (hid : x.id = y.id) : x = y := by
  by_contra hne
  have hne2 : l.Pairwise (fun a b : OptionRow => a.id ≠ b.id) :=
    hp.imp (fun h => Nat.ne_of_lt h)
  have hsym : Symmetric (fun a b : OptionRow => a.id ≠ b.id) := fun a b hab h => hab h.symm
  exact (hne2.forall hsym hx hy hne) hid

theorem wf_create_poll {s : DB} {q : String} {opts : List String}
    {a b c d : Nat} {codes : Nat → String} {now : Nat} {s2 : DB} {p : PollRow}
    (hwf : wf s) (h : create_poll s q opts a b c d codes now = .ok (s2, p)) : wf s2 := by
  obtain ⟨hw1, hw2, hw3, hw4, hw5, hw6⟩ := hwf
  obtain ⟨cleaned, code, hclean, hmap, hcode, hex, hq, hne, hmin, hmax, hdedup, hp, hs2⟩ :=
    create_poll_ok h
  subst hs2 hp
  unfold wf
  dsimp only
  refine ⟨?_, ?_, ?_, ?_, ?_, ?_⟩
  · rw [List.pairwise_append]
    refine ⟨hw1, List.pairwise_singleton _ _, ?_⟩
    intro x hx y hy
    rw [List.mem_singleton] at hy
    subst hy
    exact hw3 x hx
  · rw [List.pairwise_append]
    refine ⟨hw2, mk_options_pairwise _ _ _, ?_⟩
    intro x hx y hy
    have hyb := mk_options_id_bounds _ _ _ y hy
    have := hw4 x hx
    omega
  · intro x hx
    rcases List.mem_append.mp hx with hx | hx
    · have := hw3 x hx; omega
    · rw [List.mem_singleton] at hx; subst hx; simp
  · intro o ho
    rcases List.mem_append.mp ho with ho | ho
    · have := hw4 o ho; omega
    · have := mk_options_id_bounds _ _ _ o ho; omega
  · intro o ho
    rcases List.mem_append.mp ho with ho | ho
    · have := hw5 o ho; omega
    · rw [mk_options_poll_id _ _ _ o ho]; simp
  · intro v hv
    have := hw6 v hv; omega

theorem wf_submit_vote {s : DB} {pc : String} {oid : Nat} {ip tok : String} {s2 : DB} {r : Nat}
    (hwf : wf s) (h : submit_vote s pc oid ip tok = .ok (s2, r)) : wf s2 := by
  obtain ⟨hw1, hw2, hw3, hw4, hw5, hw6⟩ := hwf
  obtain ⟨poll, o, hpoll, ho, hip, htok, hr, hs2⟩ := submit_vote_ok h
  subst hs2
  have hpollmem : poll ∈ s.polls := List.mem_of_find?_eq_some hpoll
  refine ⟨hw1, ?_, hw3, ?_, ?_, ?_⟩
  · rw [List.pairwise_map]
    exact hw2.imp (fun hlt => by rwa [option_inc_id, option_inc_id])
  · intro x hx
    obtain ⟨y, hy, hxy⟩ := List.mem_map.mp hx
    rw [← hxy, option_inc_id]
    exact hw4 y hy
  · intro x hx
    obtain ⟨y, hy, hxy⟩ := List.mem_map.mp hx
    rw [← hxy, option_inc_poll_id]
    exact hw5 y hy
  · intro v hv
    rcases List.mem_append.mp hv with hv | hv
    · exact hw6 v hv
    · rw [List.mem_singleton] at hv
      subst hv
      exact hw3 poll hpollmem

theorem vote_unique_create_poll {s : DB} {q : String} {opts : List String}
    {a b c d : Nat} {codes : Nat → String} {now : Nat} {s2 : DB} {p : PollRow}
    (hu : vote_unique s) (h : create_poll s q opts a b c d codes now = .ok (s2, p)) :
    vote_unique s2 := by
  obtain ⟨cleaned, code, hclean, hmap, hcode, hex, hq, hne, hmin, hmax, hdedup, hp, hs2⟩ :=
    create_poll_ok h
  subst hs2
  exact hu

theorem vote_unique_submit_vote {s : DB} {pc : String} {oid : Nat} {ip tok : String}
    {s2 : DB} {r : Nat}
    (hu : vote_unique s) (h : submit_vote s pc oid ip tok = .ok (s2, r)) : vote_unique s2 := by
  obtain ⟨poll, o, hpoll, ho, hip, htok, hr, hs2⟩ := submit_vote_ok h
  subst hs2
  unfold vote_unique
  rw [List.pairwise_append]
  refine ⟨hu, List.pairwise_singleton _ _, ?_⟩
  intro w hw v hv
  rw [List.mem_singleton] at hv
  subst hv
  intro hpid
  have hip2 := (List.any_eq_false.mp hip) w hw
  have htok2 := (List.any_eq_false.mp htok) w hw
  simp only [Bool.and_eq_true, beq_iff_eq, not_and] at hip2 htok2
  simp only at hpid
  exact ⟨hip2 hpid, htok2 hpid⟩

theorem tally_create_poll {s : DB} {q : String} {opts : List String}
    {a b c d : Nat} {codes : Nat → String} {now : Nat} {s2 : DB} {p : PollRow}
    (hwf : wf s) (ht : tally_inv s)
    (h : create_poll s q opts a b c d codes now = .ok (s2, p)) : tally_inv s2 := by
  obtain ⟨hw1, hw2, hw3, hw4, hw5, hw6⟩ := hwf
  obtain ⟨cleaned, code, hclean, hmap, hcode, hex, hq, hne, hmin, hmax, hdedup, hp, hs2⟩ :=
    create_poll_ok h
  subst hs2 hp
  intro p' hp'
  unfold poll_options votes_of_poll
  dsimp only at hp' ⊢
  rw [List.filter_append]
  rcases List.mem_append.mp hp' with hmem | hmem
  · have hfnew : (mk_options s.next_poll_id s.next_option_id cleaned).filter
        (fun o => o.poll_id == p'.id) = [] := by
      rw [List.filter_eq_nil_iff]
      intro o ho
      have hpid := mk_options_poll_id _ _ _ o ho
      have := hw3 p' hmem
      simp only [hpid, beq_iff_eq]
      omega
    rw [hfnew, List.append_nil]
    exact ht p' hmem
  · rw [List.mem_singleton] at hmem
    subst hmem
    dsimp only
    have hfold : s.options.filter (fun o => o.poll_id == s.next_poll_id) = [] := by
      rw [List.filter_eq_nil_iff]
      intro o ho
      have := hw5 o ho
      simp only [beq_iff_eq]
      omega
    have hfnew : (mk_options s.next_poll_id s.next_option_id cleaned).filter
        (fun o => o.poll_id == s.next_poll_id)
        = mk_options s.next_poll_id s.next_option_id cleaned := by
      rw [List.filter_eq_self]
      intro o ho
      simp [mk_options_poll_id _ _ _ o ho]
    have hvotes : s.votes.filter (fun v => v.poll_id == s.next_poll_id) = [] := by
      rw [List.filter_eq_nil_iff]
      intro v hv
      have := hw6 v hv
      simp only [beq_iff_eq]
      omega
    rw [hfold, hfnew, hvotes]
    simp [mk_options_count_sum]

theorem tally_submit_vote {s : DB} {pc : String} {oid : Nat} {ip tok : String}
    {s2 : DB} {r : Nat}
    (hwf : wf s) (ht : tally_inv s)
    (h : submit_vote s pc oid ip tok = .ok (s2, r)) : tally_inv s2 := by
  obtain ⟨hw1, hw2, hw3, hw4, hw5, hw6⟩ := hwf
  obtain ⟨poll, o, hpoll, ho, hip, htok, hr, hs2⟩ := submit_vote_ok h
  subst hs2
  have homem : o ∈ s.options := List.mem_of_find?_eq_some ho
  have hpred : o.id = oid ∧ o.poll_id = poll.id := by simpa using List.find?_some ho
  intro p' hp'
  unfold poll_options votes_of_poll
  dsimp only at hp' ⊢
  rw [filter_map_inc, List.filter_append]
  by_cases hpp : p'.id = poll.id
  · rw [sum_vote_count_map_inc]
    have hpair : (s.options.filter (fun x => x.poll_id == p'.id)).Pairwise
        (fun a b => a.id < b.id) :=
      List.Pairwise.sublist (List.filter_sublist _) hw2
    have homem2 : o ∈ s.options.filter (fun x => x.poll_id == p'.id) :=
      List.mem_filter.mpr ⟨homem, by simp [hpred.2, hpp]⟩
    have hone := countP_id_eq_one hpair homem2
    rw [hpred.1] at hone
    have hvf : (([⟨s.next_vote_id, poll.id, oid, ip, tok⟩] : List VoteRow).filter
        (fun v => v.poll_id == p'.id)) = [⟨s.next_vote_id, poll.id, oid, ip, tok⟩] := by
      simp [hpp]
    rw [hone, hvf, List.length_append, List.length_singleton]
    have := ht p' hp'
    unfold poll_options votes_of_poll at this
    omega
  · rw [sum_vote_count_map_inc]
    have hzero : (s.options.filter (fun x => x.poll_id == p'.id)).countP
        (fun x => x.id == oid) = 0 := by
      apply countP_id_eq_zero
      intro x hx hxid
      have hxmem := (List.mem_filter.mp hx).1
      have hxpid : x.poll_id = p'.id := by simpa using (List.mem_filter.mp hx).2
      have hxo : x = o := id_inj_of_pairwise hw2 hxmem homem (by omega)
      rw [hxo] at hxpid
      exact hpp (hxpid ▸ hpred.2 ▸ rfl)
    have hvf : (([⟨s.next_vote_id, poll.id, oid, ip, tok⟩] : List VoteRow).filter
        (fun v => v.poll_id == p'.id)) = [] := by
      simp only [List.filter_eq_nil_iff, List.mem_singleton]
      intro v hv
      subst hv
      simp only [beq_iff_eq]
      exact fun hh => hpp hh.symm
    rw [hzero, hvf, List.length_append, List.length_nil]
    have := ht p' hp'
    unfold poll_options votes_of_poll at this
    omega

/-! ### Reachability: every state reached from the empty store satisfies
the structural invariants -/

theorem apply_op_preserves (s : DB) (op : LedgerOp)
    (h : wf s ∧ vote_unique s ∧ tally_inv s) :
    wf (apply_op s op) ∧ vote_unique (apply_op s op) ∧ tally_inv (apply_op s op) := by
  cases op with
  | create q opts a b c d codes now =>
    cases hc : create_poll s q opts a b c d codes now with
    | error e =>
      have hmm : apply_op s (.create q opts a b c d codes now) = s := by
        simp only [apply_op, hc]
      rw [hmm]
      exact h
    | ok sp =>
      obtain ⟨s2, p⟩ := sp
      have hmm : apply_op s (.create q opts a b c d codes now) = s2 := by
        simp only [apply_op, hc]
      rw [hmm]
      exact ⟨wf_create_poll h.1 hc, vote_unique_create_poll h.2.1 hc,
        tally_create_poll h.1 h.2.2 hc⟩
  | vote pc oid ip tok =>
    cases hc : submit_vote s pc oid ip tok with
    | error e =>
      have hmm : apply_op s (.vote pc oid ip tok) = s := by
        simp only [apply_op, hc]
      rw [hmm]
      exact h
    | ok sp =>
      obtain ⟨s2, r⟩ := sp
      have hmm : apply_op s (.vote pc oid ip tok) = s2 := by
        simp only [apply_op, hc]
      rw [hmm]
      exact ⟨wf_submit_vote h.1 hc, vote_unique_submit_vote h.2.1 hc,
        tally_submit_vote h.1 h.2.2 hc⟩

theorem run_preserves (ops : List LedgerOp) :
    ∀ s : DB, wf s ∧ vote_unique s ∧ tally_inv s →
      wf (run s ops) ∧ vote_unique (run s ops) ∧ tally_inv (run s ops) := by
  induction ops with
  | nil => intro s hs; exact hs
  | cons op ops ih =>
    intro s hs
    exact ih (apply_op s op) (apply_op_preserves s op hs)

theorem empty_inv : wf DB.empty ∧ vote_unique DB.empty ∧ tally_inv DB.empty := by
  refine ⟨⟨?_, ?_, ?_, ?_, ?_, ?_⟩, ?_, ?_⟩ <;>
    simp [DB.empty, wf, vote_unique, tally_inv, poll_options, votes_of_poll]

theorem run_wf (ops : List LedgerOp) : wf (run DB.empty ops) :=
  (run_preserves ops DB.empty empty_inv).1

theorem run_vote_unique (ops : List LedgerOp) : vote_unique (run DB.empty ops) :=
  (run_preserves ops DB.empty empty_inv).2.1

theorem run_tally_inv (ops : List LedgerOp) : tally_inv (run DB.empty ops) :=
  (run_preserves ops DB.empty empty_inv).2.2

/-! ### Evaluation of the sample states -/

theorem get_results_db2 : get_results db2 "ABCD1234" = .ok snap2 := by
  unfold get_results
  rw [show get_poll_by_code db2 "ABCD1234" = some ⟨0, "Pick one", "ABCD1234", 0⟩ from by decide]
  dsimp only
  rw [show poll_options db2 (0 : Nat) = [⟨0, 0, "A", 1⟩, ⟨1, 0, "B", 0⟩] from by decide]
  simp only [List.map_cons, List.map_nil, List.sum_cons, List.sum_nil, snap2]
  norm_num [round1, round_half_even]

theorem get_results_db3 : get_results db3 "ABCD1234" = .ok snap2 := by
  unfold get_results
  rw [show get_poll_by_code db3 "ABCD1234" = some ⟨0, "Pick one", "ABCD1234", 0⟩ from by decide]
  dsimp only
  rw [show poll_options db3 (0 : Nat) = [⟨0, 0, "A", 1⟩, ⟨1, 0, "B", 0⟩] from by decide]
  simp only [List.map_cons, List.map_nil, List.sum_cons, List.sum_nil, snap2]
  norm_num [round1, round_half_even]

theorem get_results_db1 : get_results db1 "ABCD1234" = .ok snap1 := by
  unfold get_results
  rw [show get_poll_by_code db1 "ABCD1234" = some ⟨0, "Pick one", "ABCD1234", 0⟩ from by decide]
  dsimp only
  rw [show poll_options db1 (0 : Nat) = [⟨0, 0, "A", 0⟩, ⟨1, 0, "B", 0⟩] from by decide]
  simp only [List.map_cons, List.map_nil, List.sum_cons, List.sum_nil, snap1]
  norm_num [round1, round_half_even]

theorem route_submit_vote_db1 :
    (route_submit_vote db1 rl10 "abcd1234" 0 "9.9.9.9" "tok-w" 0).2.2
      = .success snap2 snap2 := by
  unfold route_submit_vote
  rw [← @Prod.mk.eta _ _ (rl10.is_allowed "9.9.9.9" 0),
    show (rl10.is_allowed "9.9.9.9" 0).1 = true from by decide]
  dsimp only
  rw [show submit_vote db1 (py_upper "abcd1234") 0 "9.9.9.9" "tok-w" = .ok (db3, 0) from by decide]
  dsimp only
  rw [show (py_upper "abcd1234") = "ABCD1234" from by decide, get_results_db3]

/-! ### Rollback and error-shape helpers -/

theorem apply_op_create_error {s : DB} {q : String} {opts : List String}
    {a b c d : Nat} {codes : Nat → String} {now : Nat} {e : PollServiceError}
    (h : create_poll s q opts a b c d codes now = .error e) :
    apply_op s (.create q opts a b c d codes now) = s := by
  simp only [apply_op, h]

theorem apply_op_vote_error {s : DB} {pc : String} {oid : Nat} {ip tok : String}
    {e : PollServiceError}
    (h : submit_vote s pc oid ip tok = .error e) :
    apply_op s (.vote pc oid ip tok) = s := by
  simp only [apply_op, h]

theorem apply_op_vote_not_ok {s : DB} {pc : String} {oid : Nat} {ip tok : String}
    (h : ∀ s2 r, submit_vote s pc oid ip tok ≠ .ok (s2, r)) :
    apply_op s (.vote pc oid ip tok) = s := by
  cases hc : submit_vote s pc oid ip tok with
  | error e => exact apply_op_vote_error hc
  | ok sp =>
    obtain ⟨s2, r⟩ := sp
    exact absurd hc (h s2 r)

theorem clean_options_error_shape {m : Nat} {opts : List String} {e : PollServiceError}
    (h : clean_options m opts = .error e) : ∃ msg, e = .validationError msg := by
  induction opts with
  | nil => simp [clean_options] at h
  | cons a rest ih =>
    simp only [clean_options] at h
    split at h
    · cases h; exact ⟨_, rfl⟩
    · split at h
      · cases h; exact ⟨_, rfl⟩
      · cases hrec : clean_options m rest with
        | error e2 =>
          rw [hrec] at h
          cases h
          exact ih hrec
        | ok cs => rw [hrec] at h; cases h

theorem nodup_of_dedup_length {α : Type} [DecidableEq α] {l : List α}
    (h : l.dedup.length = l.length) : l.Nodup := by
  have hs : l.dedup.Sublist l := List.dedup_sublist l
  exact List.dedup_eq_self.mp (hs.eq_of_length h)

theorem db_commit_vote_ok {s : DB} {oid : Nat} {v : VoteRow} {s2 : DB}
    (h : db_commit_vote s oid v = .ok s2) :
    (s.votes.any fun w => vote_conflict w v) = false ∧
    s2 = { s with options := s.options.map (option_inc oid)
                , votes := s.votes ++ [v]
                , next_vote_id := s.next_vote_id + 1 } := by
  unfold db_commit_vote at h
  split at h
  · cases h
  next hg =>
    cases h
    exact ⟨by simpa using hg, rfl⟩

/-! ### The claims -/

/-- C1: in every state reachable through the ledger operations there is at
most one vote row per (poll, IP) and per (poll, browser token); submitting a
vote for a poll in which the same IP or token already holds a committed vote
never adds a second vote (the call fails and the state is unchanged); and
the uniqueness is enforced by the storage layer's own constrained insert
(`db_commit_vote`, modelling `uq_vote_poll_ip` / `uq_vote_poll_token`):
that insert alone preserves uniqueness and rejects any conflicting row with
`IntegrityError`, independently of the application-level pre-checks. -/
theorem claim_C1 :
    (∀ ops : List LedgerOp, vote_unique (run DB.empty ops))
    ∧ (∀ (s : DB) (pc : String) (oid : Nat) (ip tok : String) (poll : PollRow),
        get_poll_by_code s pc = some poll →
        (∃ v ∈ s.votes, v.poll_id = poll.id ∧ (v.ip_address = ip ∨ v.browser_token = tok)) →
        (∀ s2 r, submit_vote s pc oid ip tok ≠ .ok (s2, r)) ∧
          apply_op s (.vote pc oid ip tok) = s)
    ∧ (∀ (s : DB) (oid : Nat) (v : VoteRow) (s2 : DB),
        vote_unique s → db_commit_vote s oid v = .ok s2 → vote_unique s2)
    ∧ (∀ (s : DB) (oid : Nat) (v : VoteRow),
        (∃ w ∈ s.votes, w.poll_id = v.poll_id ∧
          (w.ip_address = v.ip_address ∨ w.browser_token = v.browser_token)) →
        db_commit_vote s oid v = .error .integrityError) := by
  refine ⟨run_vote_unique, ?_, ?_, ?_⟩
  · intro s pc oid ip tok poll hpoll hdup
    have hne : ∀ s2 r, submit_vote s pc oid ip tok ≠ .ok (s2, r) := by
      intro s2 r hok
      obtain ⟨poll2, o, hpoll2, ho, hip, htok, _, _⟩ := submit_vote_ok hok
      rw [hpoll] at hpoll2
      injection hpoll2 with hpoll3
      subst hpoll3
      obtain ⟨v, hv, hvp, hvd⟩ := hdup
      rcases hvd with hvd | hvd
      · have := List.any_eq_false.mp hip v hv
        simp only [Bool.and_eq_true, beq_iff_eq, not_and] at this
        exact this hvp hvd
      · have := List.any_eq_false.mp htok v hv
        simp only [Bool.and_eq_true, beq_iff_eq, not_and] at this
        exact this hvp hvd
    exact ⟨hne, apply_op_vote_not_ok hne⟩
  · intro s oid v s2 hu h
    obtain ⟨hg, hs2⟩ := db_commit_vote_ok h
    subst hs2
    unfold vote_unique
    rw [List.pairwise_append]
    refine ⟨hu, List.pairwise_singleton _ _, ?_⟩
    intro w hw v2 hv2
    rw [List.mem_singleton] at hv2
    subst hv2
    intro hpid
    have := List.any_eq_false.mp hg w hw
    simp only [vote_conflict, Bool.and_eq_true, Bool.or_eq_true, beq_iff_eq,
      not_and, not_or] at this
    exact this hpid
  · intro s oid v hconf
    obtain ⟨w, hw, hwp, hwd⟩ := hconf
    unfold db_commit_vote
    rw [if_pos]
    refine List.any_eq_true.mpr ⟨w, hw, ?_⟩
    simp only [vote_conflict, Bool.and_eq_true, Bool.or_eq_true, beq_iff_eq]
    rcases hwd with hwd | hwd
    · exact ⟨hwp, Or.inl hwd⟩
    · exact ⟨hwp, Or.inr hwd⟩

theorem claim_C1_witness :
    apply_op db2 (.vote "ABCD1234" 1 "1.1.1.1" "tok-y") = db2 :=
  (claim_C1.2.1 db2 "ABCD1234" 1 "1.1.1.1" "tok-y" ⟨0, "Pick one", "ABCD1234", 0⟩
    (by decide) (by decide)).2

/-- C2: in every reachable state the per-poll sum of the denormalised
`vote_count`s equals the number of vote rows referencing the poll;
`create_poll` leaves the vote table untouched and starts every option of
the new poll at count 0; and a successful `submit_vote` commits exactly the
one vote row and the one relative count increment together (an error leaves
no partial write, by the rollback semantics of `apply_op`). -/
theorem claim_C2 :
    (∀ ops : List LedgerOp, tally_inv (run DB.empty ops))
    ∧ (∀ (s : DB) (q : String) (opts : List String) (a b c d : Nat)
        (codes : Nat → String) (now : Nat) (s2 : DB) (p : PollRow), wf s →
        create_poll s q opts a b c d codes now = .ok (s2, p) →
        s2.votes = s.votes ∧ ∀ o ∈ poll_options s2 p.id, o.vote_count = 0)
    ∧ (∀ (s : DB) (pc : String) (oid : Nat) (ip tok : String) (s2 : DB) (r : Nat)
        (poll : PollRow),
        get_poll_by_code s pc = some poll →
        submit_vote s pc oid ip tok = .ok (s2, r) →
        s2.votes = s.votes ++ [⟨s.next_vote_id, poll.id, oid, ip, tok⟩] ∧
        s2.options = s.options.map (option_inc oid) ∧ s2.polls = s.polls) := by
  refine ⟨run_tally_inv, ?_, ?_⟩
  · intro s q opts a b c d codes now s2 p hwf h
    obtain ⟨hw1, hw2, hw3, hw4, hw5, hw6⟩ := hwf
    obtain ⟨cleaned, code, hclean, hmap, hcode, hex, hq, hne, hmin, hmax, hdedup, hp, hs2⟩ :=
      create_poll_ok h
    subst hs2 hp
    refine ⟨rfl, ?_⟩
    intro o ho
    unfold poll_options at ho
    dsimp only at ho
    rw [List.filter_append] at ho
    rcases List.mem_append.mp ho with ho | ho
    · have h1 := (List.mem_filter.mp ho).1
      have h2 := (List.mem_filter.mp ho).2
      have h3 := hw5 o h1
      simp only [beq_iff_eq] at h2
      omega
    · exact mk_options_vote_count _ _ _ o (List.mem_of_mem_filter ho)
  · intro s pc oid ip tok s2 r poll hpoll hok
    obtain ⟨poll2, o, hpoll2, ho, hip, htok, hr, hs2⟩ := submit_vote_ok hok
    rw [hpoll] at hpoll2
    injection hpoll2 with hpoll3
    subst hpoll3 hs2
    exact ⟨rfl, rfl, rfl⟩

theorem claim_C2_witness :
    db1.votes = DB.empty.votes ∧
      db2.votes = db1.votes ++ [⟨0, 0, 0, "1.1.1.1", "tok-x"⟩] := by
  constructor
  · exact (claim_C2.2.1 DB.empty "Pick one" ["A", "B"] 2 10 500 200 sample_codes 0 db1
      ⟨0, "Pick one", "ABCD1234", 0⟩ (by decide) (by decide)).1
  · exact (claim_C2.2.2 db1 "ABCD1234" 0 "1.1.1.1" "tok-x" db2 0
      ⟨0, "Pick one", "ABCD1234", 0⟩ (by decide) (by decide)).1

/-- C3 counterexample: in `db2` the IP 1.1.1.1 already holds a committed
vote in poll ABCD1234, yet a submission naming a non-existent option id 99
fails with `ValidationError "Invalid option selected"`, not with
`DuplicateVoteError` — so "fails with DuplicateVote exactly when the IP or
token already has a committed vote in that poll" is false as stated. -/
theorem claim_C3_counterexample :
    submit_vote db2 "ABCD1234" 99 "1.1.1.1" "tok-z"
      = .error (.validationError "Invalid option selected")
    ∧ get_poll_by_code db2 "ABCD1234" = some ⟨0, "Pick one", "ABCD1234", 0⟩
    ∧ (∃ v ∈ db2.votes, v.poll_id = 0 ∧ v.ip_address = "1.1.1.1") := by
  refine ⟨by decide, by decide, by decide⟩

/-- C3 (amended): when the poll resolves and the option id names an option
of that poll, `submit_vote` fails with `DuplicateVoteError` exactly when the
submitting IP or browser token already has a committed vote in the poll;
and on every failure the ledger state is completely unchanged — no vote row
inserted, no count incremented. -/
theorem claim_C3 :
    (∀ (s : DB) (pc : String) (oid : Nat) (ip tok : String) (poll : PollRow) (o : OptionRow),
      get_poll_by_code s pc = some poll →
      s.options.find? (fun x => x.id == oid && x.poll_id == poll.id) = some o →
      ((∃ m, submit_vote s pc oid ip tok = .error (.duplicateVoteError m)) ↔
        ∃ v ∈ s.votes, v.poll_id = poll.id ∧ (v.ip_address = ip ∨ v.browser_token = tok)))
    ∧ (∀ (s : DB) (pc : String) (oid : Nat) (ip tok : String),
        (∀ s2 r, submit_vote s pc oid ip tok ≠ .ok (s2, r)) →
        apply_op s (.vote pc oid ip tok) = s) := by
  exact ⟨fun s pc oid ip tok poll o hpoll ho => submit_vote_duplicate_iff hpoll ho,
    fun s pc oid ip tok h => apply_op_vote_not_ok h⟩

theorem claim_C3_witness :
    submit_vote db2 "ABCD1234" 1 "2.2.2.2" "tok-x"
      = .error (.duplicateVoteError "You have already voted")
    ∧ apply_op db2 (.vote "ABCD1234" 1 "2.2.2.2" "tok-x") = db2 := by
  have hiff := (claim_C3.1 db2 "ABCD1234" 1 "2.2.2.2" "tok-x"
    ⟨0, "Pick one", "ABCD1234", 0⟩ ⟨1, 0, "B", 0⟩ (by decide) (by decide)).mpr
    ⟨⟨0, 0, 0, "1.1.1.1", "tok-x"⟩, by decide, by decide, Or.inr (by decide)⟩
  refine ⟨by decide, claim_C3.2 db2 "ABCD1234" 1 "2.2.2.2" "tok-x" ?_⟩
  intro s2 r hx
  rw [show submit_vote db2 "ABCD1234" 1 "2.2.2.2" "tok-x"
      = .error (.duplicateVoteError "You have already voted") from by decide] at hx
  cases hx

/-- C4: `is_allowed` first prunes the identity's record to timestamps
inside the trailing window, then rejects without recording the request when
the remaining count is at or above `max_requests`, and otherwise records
`current_time` and admits; with `max_requests = 3` and `window = 60`,
three calls inside the window are admitted, the fourth is rejected, and a
call after the window has passed is admitted again. -/
theorem claim_C4 :
    (∀ (rl : RateLimiter) (ip : String) (now : ℚ),
      (rl.max_requests ≤
          ((rl.requests ip).filter (fun t => now - rl.window_seconds < t)).length →
        (rl.is_allowed ip now).1 = false ∧
        ((rl.is_allowed ip now).2).requests ip =
          (rl.requests ip).filter (fun t => now - rl.window_seconds < t))
      ∧ (((rl.requests ip).filter (fun t => now - rl.window_seconds < t)).length <
            rl.max_requests →
        (rl.is_allowed ip now).1 = true ∧
        ((rl.is_allowed ip now).2).requests ip =
          (rl.requests ip).filter (fun t => now - rl.window_seconds < t) ++ [now]))
    ∧ (let r1 := (RateLimiter.mk0 3 60).is_allowed "client" 0
       let r2 := r1.2.is_allowed "client" 10
       let r3 := r2.2.is_allowed "client" 20
       let r4 := r3.2.is_allowed "client" 30
       let r5 := r4.2.is_allowed "client" 90
       r1.1 = true ∧ r2.1 = true ∧ r3.1 = true ∧ r4.1 = false ∧ r5.1 = true) := by
  constructor
  · intro rl ip now
    constructor
    · intro h
      simp only [RateLimiter.is_allowed]
      rw [if_pos h]
      exact ⟨rfl, by simp⟩
    · intro h
      simp only [RateLimiter.is_allowed]
      rw [if_neg (by omega)]
      exact ⟨rfl, by simp⟩
  · simp only [RateLimiter.is_allowed, RateLimiter.mk0]
    norm_num

theorem claim_C4_witness :
    ((⟨3, 60, fun _ => [0, 10, 20]⟩ : RateLimiter).is_allowed "a" 30).1 = false
    ∧ ((RateLimiter.mk0 3 60).is_allowed "b" 5).1 = true := by
  constructor
  · exact ((claim_C4.1 ⟨3, 60, fun _ => [0, 10, 20]⟩ "a" 30).1 (by norm_num)).1
  · exact ((claim_C4.1 (RateLimiter.mk0 3 60) "b" 5).2 (by norm_num [RateLimiter.mk0])).1

/-- A map whose values are all 0 is a replicate of 0s. -/
theorem map_eq_replicate_zero {l : List OptionRow} {f : OptionRow → ℚ}
    (hf : ∀ o ∈ l, f o = 0) : l.map f = List.replicate l.length 0 := by
  induction l with
  | nil => rfl
  | cons a t ih =>
    simp only [List.map_cons, List.length_cons, List.replicate_succ,
      hf a (List.mem_cons_self a t)]
    rw [ih (fun o ho => hf o (List.mem_cons_of_mem a ho))]

/-- C5: for every existing poll, `get_results` reports `total_votes` as the
sum of the options' counts, each option's percentage independently as
`round(count / total * 100, 1)` when the total is positive, and exactly 0
for every option when the total is 0 (the division is guarded away). -/
theorem claim_C5 :
    ∀ (s : DB) (pc : String) (snap : ResultsSnapshot) (poll : PollRow),
      get_results s pc = .ok snap →
      get_poll_by_code s pc = some poll →
      snap.total_votes = ((poll_options s poll.id).map (fun o => o.vote_count)).sum ∧
      snap.options.map (fun res => res.percentage) =
        (poll_options s poll.id).map (fun o =>
          if 0 < snap.total_votes
          then round1 ((o.vote_count : ℚ) / (snap.total_votes : ℚ) * 100) else 0) ∧
      (snap.total_votes = 0 →
        snap.options.map (fun res => res.percentage)
          = List.replicate snap.options.length 0) := by
  intro s pc snap poll hres hpoll
  unfold get_results at hres
  rw [hpoll] at hres
  dsimp only at hres
  cases hres
  dsimp only
  refine ⟨rfl, ?_, ?_⟩
  · rw [List.map_map]
    apply List.map_congr_left
    intro o ho
    dsimp only [Function.comp]
    by_cases htot : 0 < ((poll_options s poll.id).map (fun o => o.vote_count)).sum
    · rw [if_pos htot, if_pos htot]
    · rw [if_neg htot, if_neg htot]
      norm_num [round1, round_half_even]
  · intro htot
    rw [List.map_map, List.length_map]
    apply map_eq_replicate_zero
    intro o ho
    dsimp only [Function.comp]
    rw [if_neg (by omega)]
    norm_num [round1, round_half_even]

theorem claim_C5_witness :
    snap2.total_votes = ((poll_options db2 0).map (fun o => o.vote_count)).sum
    ∧ snap1.options.map (fun res => res.percentage)
        = List.replicate snap1.options.length 0 := by
  constructor
  · exact (claim_C5 db2 "ABCD1234" snap2 ⟨0, "Pick one", "ABCD1234", 0⟩
      get_results_db2 (by decide)).1
  · exact (claim_C5 db1 "ABCD1234" snap1 ⟨0, "Pick one", "ABCD1234", 0⟩
      get_results_db1 (by decide)).2.2 (by decide)

/-- C6: the snapshot of an existing poll has exactly the fields
`poll_code`, `question`, `total_votes`, `created_at`, and per-option
`{id, option_text, vote_count, percentage}` entries listed in stable
creation order (in every reachable state the per-poll option ids are
strictly increasing); and in the vote route the broadcast payload and the
payload of the direct JSON response are the same snapshot. -/
theorem claim_C6 :
    (∀ (s : DB) (rl : RateLimiter) (raw : String) (oid : Nat) (ip tok : String)
        (now : ℚ) (b resp : ResultsSnapshot),
      (route_submit_vote s rl raw oid ip tok now).2.2 = .success b resp → b = resp)
    ∧ (∀ (s : DB) (pc : String) (snap : ResultsSnapshot) (poll : PollRow),
        get_results s pc = .ok snap →
        get_poll_by_code s pc = some poll →
        snap.poll_code = pc ∧ snap.question = poll.question ∧
        snap.created_at = poll.created_at ∧
        snap.total_votes = ((poll_options s poll.id).map (fun o => o.vote_count)).sum ∧
        snap.options.map (fun res => (res.id, res.option_text, res.vote_count)) =
          (poll_options s poll.id).map (fun o => (o.id, o.option_text, o.vote_count)))
    ∧ (∀ (ops : List LedgerOp) (pid : Nat),
        ((poll_options (run DB.empty ops) pid).map (fun o => o.id)).Pairwise
          (fun a b => a < b)) := by
  refine ⟨?_, ?_, ?_⟩
  · intro s rl raw oid ip tok now b resp h
    unfold route_submit_vote at h
    split at h
    · simp at h
    · split at h
      · split at h
        · dsimp only at h
          obtain ⟨hb, hresp⟩ := VoteRouteResult.success.inj h
          rw [← hb, ← hresp]
        · simp at h
      all_goals simp at h
  · intro s pc snap poll hres hpoll
    unfold get_results at hres
    rw [hpoll] at hres
    dsimp only at hres
    cases hres
    refine ⟨rfl, rfl, rfl, rfl, ?_⟩
    rw [List.map_map]
    rfl
  · intro ops pid
    have hw2 := (run_wf ops).2.1
    have hp : (poll_options (run DB.empty ops) pid).Pairwise (fun a b => a.id < b.id) :=
      List.Pairwise.sublist (List.filter_sublist _) hw2
    exact List.pairwise_map.mpr hp

theorem claim_C6_witness :
    (route_submit_vote db1 rl10 "abcd1234" 0 "9.9.9.9" "tok-w" 0).2.2
      = .success snap2 snap2
    ∧ snap2.poll_code = "ABCD1234" ∧ snap2.question = "Pick one"
    ∧ snap2.options.map (fun res => (res.id, res.option_text, res.vote_count))
      = [(0, "A", 1), (1, "B", 0)] := by
  have h6 := claim_C6.2.1 db2 "ABCD1234" snap2 ⟨0, "Pick one", "ABCD1234", 0⟩
    get_results_db2 (by decide)
  have hroute := claim_C6.1 db1 rl10 "abcd1234" 0 "9.9.9.9" "tok-w" 0 snap2 snap2
    route_submit_vote_db1
  exact ⟨route_submit_vote_db1, h6.1, h6.2.1, by decide⟩

/-- C7: a creation request whose option count is below `min_options` or
above `max_options`, or whose options contain a duplicate text after
trimming, always fails with `ValidationError`, and the ledger is unchanged
(no poll or option row is created). -/
theorem claim_C7 :
    ∀ (s : DB) (q : String) (opts : List String) (a b c d : Nat)
      (codes : Nat → String) (now : Nat),
      (opts.length < a ∨ b < opts.length ∨ ¬ (opts.map py_strip).Nodup) →
      (∃ m, create_poll s q opts a b c d codes now = .error (.validationError m)) ∧
      apply_op s (.create q opts a b c d codes now) = s := by
  intro s q opts a b c d codes now hbad
  have herr : ∃ m, create_poll s q opts a b c d codes now = .error (.validationError m) := by
    unfold create_poll
    by_cases h1 : py_strip q = ""
    · rw [if_pos h1]; exact ⟨_, rfl⟩
    rw [if_neg h1]
    by_cases h2 : c < (py_strip q).length
    · rw [if_pos h2]; exact ⟨_, rfl⟩
    rw [if_neg h2]
    by_cases h3 : (opts.isEmpty || decide (opts.length < a)) = true
    · rw [if_pos h3]; exact ⟨_, rfl⟩
    rw [if_neg h3]
    by_cases h4 : b < opts.length
    · rw [if_pos h4]; exact ⟨_, rfl⟩
    rw [if_neg h4]
    cases hclean : clean_options d opts with
    | error e =>
      obtain ⟨m, hm⟩ := clean_options_error_shape hclean
      exact ⟨m, by rw [hm]⟩
    | ok cleaned =>
      have hmap := clean_options_ok hclean
      have hdup : cleaned.dedup.length ≠ cleaned.length := by
        intro habs
        have hnodup : cleaned.Nodup := nodup_of_dedup_length habs
        rw [hmap] at hnodup
        simp only [Bool.or_eq_true, decide_eq_true_eq, not_or] at h3
        rcases hbad with hbad | hbad | hbad
        · exact h3.2 hbad
        · exact h4 hbad
        · exact hbad hnodup
      dsimp only
      rw [if_pos hdup]
      exact ⟨_, rfl⟩
  obtain ⟨m, hm⟩ := herr
  exact ⟨⟨m, hm⟩, apply_op_create_error hm⟩

theorem claim_C7_witness :
    apply_op DB.empty (.create "Q" ["A"] 2 10 500 200 (fun _ => "CODE0000") 0) = DB.empty :=
  (claim_C7 DB.empty "Q" ["A"] 2 10 500 200 (fun _ => "CODE0000") 0 (Or.inl (by decide))).2

/-- C8: a valid creation request (non-empty bounded question, option count
within bounds, options non-empty after trimming, within length bounds and
pairwise distinct after trimming, with a fresh first code candidate)
succeeds, and the created poll stores exactly one option per input text,
trimmed, in the input's original order. -/
theorem claim_C8 :
    ∀ (s : DB) (q : String) (opts : List String) (a b c d : Nat)
      (codes : Nat → String) (now : Nat),
      wf s →
      ¬ py_strip q = "" → (py_strip q).length ≤ c →
      ¬ opts.isEmpty → a ≤ opts.length → opts.length ≤ b →
      (∀ o ∈ opts, ¬ py_strip o = "" ∧ (py_strip o).length ≤ d) →
      (opts.map py_strip).Nodup →
      poll_code_exists s (codes 0) = false →
      create_poll s q opts a b c d codes now
        = .ok (created_state s q (opts.map py_strip) (codes 0) now,
               created_poll_row s q (codes 0) now) ∧
      (poll_options (created_state s q (opts.map py_strip) (codes 0) now)
          (created_poll_row s q (codes 0) now).id).length = opts.length ∧
      (poll_options (created_state s q (opts.map py_strip) (codes 0) now)
          (created_poll_row s q (codes 0) now).id).map (fun o => o.option_text)
        = opts.map py_strip := by
  intro s q opts a b c d codes now hwf hq hqlen hne hmin hmax hopts hnodup hfresh
  obtain ⟨hw1, hw2, hw3, hw4, hw5, hw6⟩ := hwf
  have hgen : generate_unique_poll_code s codes = .ok (codes 0) := by
    unfold generate_unique_poll_code
    rw [show (10 : Nat) = 9 + 1 from rfl]
    simp only [gen_code_attempts, hfresh]
    simp
  have hclean : clean_options d opts = .ok (opts.map py_strip) := clean_options_complete hopts
  have hcount : ¬ ((opts.isEmpty || decide (opts.length < a)) = true) := by
    simp only [Bool.or_eq_true, decide_eq_true_eq, not_or]
    exact ⟨by simpa using hne, by omega⟩
  have hfilter : poll_options (created_state s q (opts.map py_strip) (codes 0) now)
      s.next_poll_id = mk_options s.next_poll_id s.next_option_id (opts.map py_strip) := by
    unfold poll_options created_state
    dsimp only
    rw [List.filter_append]
    rw [List.filter_eq_nil_iff.mpr (fun o ho => by
      have := hw5 o ho
      simp only [beq_iff_eq]
      omega)]
    rw [List.nil_append]
    rw [List.filter_eq_self.mpr (fun o ho => by
      simp [mk_options_poll_id _ _ _ o ho])]
  have hok : create_poll s q opts a b c d codes now
      = .ok (created_state s q (opts.map py_strip) (codes 0) now,
             created_poll_row s q (codes 0) now) := by
    unfold create_poll
    rw [if_neg hq, if_neg (by omega), if_neg hcount, if_neg (by omega), hclean]
    dsimp only
    rw [if_neg (by simp [List.dedup_eq_self.mpr hnodup])]
    rw [hgen]
    dsimp only
    rw [if_neg (by simp [hfresh])]
    rfl
  refine ⟨hok, ?_, ?_⟩
  · show (poll_options _ s.next_poll_id).length = _
    rw [hfilter, mk_options_length, List.length_map]
  · show (poll_options _ s.next_poll_id).map _ = _
    rw [hfilter, mk_options_text]

theorem claim_C8_witness :
    create_poll DB.empty "Pick one" ["A", "B"] 2 10 500 200 sample_codes 0
      = .ok (created_state DB.empty "Pick one" ["A", "B"] "ABCD1234" 0,
             created_poll_row DB.empty "Pick one" "ABCD1234" 0)
    ∧ (poll_options (created_state DB.empty "Pick one" ["A", "B"] "ABCD1234" 0) 0).map
        (fun o => o.option_text) = ["A", "B"] := by
  have h := claim_C8 DB.empty "Pick one" ["A", "B"] 2 10 500 200 sample_codes 0
    (by decide) (by decide) (by decide) (by decide) (by decide) (by decide)
    (by decide) (by decide) (by decide)
  exact ⟨h.1, h.2.2⟩

/-- C9 counterexample: on a store whose only poll owns the code the
generator keeps producing, a well-formed creation request exhausts all 10
attempts; the service raises `ValidationError "Unable to generate unique
poll code"` and the create route surfaces it through its validation-error
branch (`flash(str(e))`) — a caller-visible validation rejection, not the
generic server failure the claim asserts. -/
theorem claim_C9_counterexample :
    route_create_poll s_collide "Pick one" ["A", "B"] 2 10 500 200 (fun _ => "AAAAAAAA") 5
      = (s_collide, .validationRejection "Unable to generate unique poll code")
    ∧ (route_create_poll s_collide "Pick one" ["A", "B"] 2 10 500 200
        (fun _ => "AAAAAAAA") 5).2 ≠ CreateRouteOutcome.genericFailure := by
  exact ⟨by decide, by decide⟩

/-- C9 (amended): code generation retries up to 10 candidates, succeeding
on the first fresh one; if all 10 collide it fails with
`ValidationError "Unable to generate unique poll code"`, which the create
route surfaces to the caller as a validation rejection (flashed message),
not as a generic server failure. -/
theorem claim_C9 :
    (∀ (s : DB) (codes : Nat → String),
      (∀ j, j < 10 → poll_code_exists s (codes j) = true) →
      generate_unique_poll_code s codes
        = .error (.validationError "Unable to generate unique poll code"))
    ∧ (∀ (s : DB) (codes : Nat → String) (i : Nat),
        i < 10 → (∀ j, j < i → poll_code_exists s (codes j) = true) →
        poll_code_exists s (codes i) = false →
        generate_unique_poll_code s codes = .ok (codes i))
    ∧ (∀ (s : DB) (q : String) (opts : List String) (a b c d : Nat)
        (codes : Nat → String) (now : Nat),
        (∀ j, j < 10 → poll_code_exists s (codes j) = true) →
        ¬ py_strip q = "" → (py_strip q).length ≤ c →
        ¬ opts.isEmpty → a ≤ opts.length → opts.length ≤ b →
        (∀ o ∈ opts, ¬ py_strip o = "" ∧ (py_strip o).length ≤ d) →
        (opts.map py_strip).Nodup →
        route_create_poll s q opts a b c d codes now
          = (s, .validationRejection "Unable to generate unique poll code")) := by
  have hfresh_gen : ∀ (s : DB) (codes : Nat → String) (start fuel i : Nat),
      i < fuel → (∀ j, j < i → poll_code_exists s (codes (start + j)) = true) →
      poll_code_exists s (codes (start + i)) = false →
      gen_code_attempts s codes start fuel = .ok (codes (start + i)) := by
    intro s codes start fuel i
    induction i generalizing start fuel with
    | zero =>
      intro hlt hcoll hfree
      cases fuel with
      | zero => omega
      | succ n =>
        simp only [gen_code_attempts]
        rw [if_neg (by simp_all)]
        simp
    | succ k ih =>
      intro hlt hcoll hfree
      cases fuel with
      | zero => omega
      | succ n =>
        simp only [gen_code_attempts]
        rw [if_pos (by simpa using hcoll 0 (Nat.succ_pos k))]
        have := ih (start + 1) n (by omega)
          (fun j hj => by
            have := hcoll (j + 1) (Nat.succ_lt_succ hj)
            rwa [show start + (j + 1) = start + 1 + j by omega] at this)
          (by rwa [show start + 1 + k = start + (k + 1) by omega])
        rwa [show start + 1 + k = start + (k + 1) by omega] at this
  refine ⟨?_, ?_, ?_⟩
  · intro s codes h
    exact generate_unique_poll_code_exhausted h
  · intro s codes i hlt hcoll hfree
    have := hfresh_gen s codes 0 10 i hlt
      (fun j hj => by simpa using hcoll j hj) (by simpa using hfree)
    simpa [generate_unique_poll_code] using this
  · intro s q opts a b c d codes now hcoll hq hqlen hne hmin hmax hopts hnodup
    have hgen := generate_unique_poll_code_exhausted hcoll
    have hclean : clean_options d opts = .ok (opts.map py_strip) :=
      clean_options_complete hopts
    have hcount : ¬ ((opts.isEmpty || decide (opts.length < a)) = true) := by
      simp only [Bool.or_eq_true, decide_eq_true_eq, not_or]
      exact ⟨by simpa using hne, by omega⟩
    have herr : create_poll s q opts a b c d codes now
        = .error (.validationError "Unable to generate unique poll code") := by
      unfold create_poll
      rw [if_neg hq, if_neg (by omega), if_neg hcount, if_neg (by omega), hclean]
      dsimp only
      rw [if_neg (by simp [List.dedup_eq_self.mpr hnodup])]
      rw [hgen]
    unfold route_create_poll
    rw [herr]

theorem claim_C9_witness :
    route_create_poll s_collide "Vote now" ["X1", "Y2"] 2 10 500 200
      (fun _ => "AAAAAAAA") 7
      = (s_collide, .validationRejection "Unable to generate unique poll code") :=
  claim_C9.2.2 s_collide "Vote now" ["X1", "Y2"] 2 10 500 200 (fun _ => "AAAAAAAA") 7
    (fun j hj => (by decide : poll_code_exists s_collide "AAAAAAAA" = true))
    (by decide) (by decide) (by decide) (by decide) (by decide) (by decide) (by decide)

/-- C10: a successful `submit_vote` changes only the voted option's
`vote_count`, by exactly +1: the poll table is untouched, every option row
with a different id is carried over unchanged, the voted row keeps its id,
text and poll reference, all ids, texts and poll references are preserved
table-wide, previously recorded votes are kept, and exactly one vote row is
appended. -/
theorem claim_C10 :
    ∀ (s : DB) (pc : String) (oid : Nat) (ip tok : String) (s2 : DB) (r : Nat)
      (poll : PollRow),
      get_poll_by_code s pc = some poll →
      submit_vote s pc oid ip tok = .ok (s2, r) →
      s2.polls = s.polls ∧
      s2.options = s.options.map (option_inc oid) ∧
      (∀ o ∈ s.options, o.id ≠ oid → o ∈ s2.options) ∧
      (∀ o ∈ s.options, o.id = oid →
        { o with vote_count := o.vote_count + 1 } ∈ s2.options) ∧
      s2.options.map (fun o => (o.id, o.poll_id, o.option_text))
        = s.options.map (fun o => (o.id, o.poll_id, o.option_text)) ∧
      s2.votes = s.votes ++ [⟨s.next_vote_id, poll.id, oid, ip, tok⟩] := by
  intro s pc oid ip tok s2 r poll hpoll hok
  obtain ⟨poll2, o, hpoll2, ho, hip, htok, hr, hs2⟩ := submit_vote_ok hok
  rw [hpoll] at hpoll2
  injection hpoll2 with hpoll3
  subst hpoll3 hs2
  refine ⟨rfl, rfl, ?_, ?_, ?_, rfl⟩
  · intro o2 ho2 hne
    refine List.mem_map.mpr ⟨o2, ho2, ?_⟩
    unfold option_inc
    rw [if_neg (by simpa using hne)]
  · intro o2 ho2 heq
    refine List.mem_map.mpr ⟨o2, ho2, ?_⟩
    unfold option_inc
    rw [if_pos (by simpa using heq)]
  · show (s.options.map (option_inc oid)).map _ = _
    rw [List.map_map]
    apply List.map_congr_left
    intro o2 _
    dsimp only [Function.comp]
    rw [option_inc_id, option_inc_poll_id, option_inc_text]

theorem claim_C10_witness :
    db2.polls = db1.polls ∧ db2.options = db1.options.map (option_inc 0)
    ∧ db2.votes = db1.votes ++ [⟨0, 0, 0, "1.1.1.1", "tok-x"⟩] := by
  have h := claim_C10 db1 "ABCD1234" 0 "1.1.1.1" "tok-x" db2 0
    ⟨0, "Pick one", "ABCD1234", 0⟩ (by decide) (by decide)
  exact ⟨h.1, h.2.1, h.2.2.2.2.2⟩
